import Mathlib

/-!
Shallow embedding of the distributed-SSE-for-LLM-response repository:
the Redis→NATS ingest bridge (`src/redis-nats-bridge/main.go`), the SSE
delivery engine (`src/sse-adapter/sse_handler.go`, handlers `HandleStream`
and `HandleChat` with their per-connection delivery loops), and the LLM
stream proxy producer (`streamFromLLM` / `publishToken`).

Machine integers (`int64` sequence numbers) are modelled as `Int`; JSON
payloads are modelled at the decoded level (an envelope or a decode
failure), matching how every caller treats `json.Unmarshal` — the byte
level is never inspected elsewhere.
-/

/-- The wire envelope `TokenMessage` shared by the bridge, the stream proxy
and the SSE adapter: `{conversation_id, token, sequence, done, timestamp}`. -/
structure TokenMessage where
  conversationID : String
  token : String
  sequence : Int
  done : Bool
  timestamp : Int
deriving DecidableEq, Repr

/-- Destination topic for a conversation, `fmt.Sprintf("chat.%s.tokens", id)`,
used identically by both bridge (`main.go` line 160) and adapter
(`sse_handler.go` lines 133 and 314). -/
def tokenSubject (conversationID : String) : String :=
  "chat." ++ conversationID ++ ".tokens"

/-! ## Ingest bridge (`src/redis-nats-bridge/main.go`)

The processing loop (lines 136–181): for each Redis pub/sub message,
a nil message or a JSON decode failure is skipped; otherwise the envelope
is republished to NATS under `tokenSubject`; a NATS publish error is
logged and the loop continues.  A received message is modelled as its
decode outcome (`none` = nil message or unmarshal failure) paired with
whether the NATS publish for it fails. -/

/-- One iteration of the bridge loop body (lines 142–179): returns the
(subject, envelope) publish this message produced, if any. -/
def bridgeStep : Option TokenMessage × Bool → Option (String × TokenMessage)
  | (none, _) => none
  | (some _, true) => none
  | (some t, false) => some (tokenSubject t.conversationID, t)

/-- The bridge loop over a finite message stream: publishes issued, in order. -/
def bridgeRun (msgs : List (Option TokenMessage × Bool)) : List (String × TokenMessage) :=
  msgs.filterMap bridgeStep

/-- Number of publishes carrying a given `(conversation_id, sequence)` pair. -/
def countPub (conversationID : String) (seq : Int) (pubs : List (String × TokenMessage)) : Nat :=
  (pubs.filter (fun p => p.2.conversationID = conversationID ∧ p.2.sequence = seq)).length

/-- Bridge configuration (`Config` in `redis-nats-bridge/main.go`). -/
structure BridgeConfig where
  redisAddr : String
  redisPassword : String
  redisDB : Int
  redisChannel : String
  natsUrl : String
  instanceID : String
  dedupeWindowSec : Int
deriving DecidableEq, Repr

/-- `getEnv` (both binaries): the environment value when set and non-empty,
else the default.  `env` models `os.Getenv`, returning `""` for unset keys. -/
def getEnv (env : String → String) (key defaultVal : String) : String :=
  if env key ≠ "" then env key else defaultVal

/-- `getEnvInt` in `redis-nats-bridge/main.go`: `Sscanf` of the value when
set and non-empty (modelled by the integer parse oracle `parseInt`, with 0
for an unparsable value, as `Sscanf` leaves `i` zero), else the default. -/
def getEnvInt (env : String → String) (parseInt : String → Option Int)
    (key : String) (defaultVal : Int) : Int :=
  if env key ≠ "" then (parseInt (env key)).getD 0 else defaultVal

/-- `loadConfig` of the bridge (lines 28–38); `instanceID` takes the
generated `bridge-<nanos>` name when the variable is unset. -/
def bridgeLoadConfig (env : String → String) (parseInt : String → Option Int)
    (generatedID : String) : BridgeConfig :=
  { redisAddr := getEnv env "REDIS_ADDR" "localhost:6379"
    redisPassword := getEnv env "REDIS_PASSWORD" ""
    redisDB := getEnvInt env parseInt "REDIS_DB" 0
    redisChannel := getEnv env "REDIS_CHANNEL" "llm:tokens:*"
    natsUrl := getEnv env "NATS_URL" "nats://localhost:4222"
    instanceID := getEnv env "INSTANCE_ID" generatedID
    dedupeWindowSec := getEnvInt env parseInt "DEDUPE_WINDOW_SEC" 30 }

/-! ## Resume filter of `HandleStream` (`sse_handler.go` lines 90–96, 142–145) -/

/-- Lines 90–96: `startSequence` computed from the `Last-Event-ID` header;
`none` models an absent (empty) header, `some n` a header parsing to `n`.
On a present header the code does `Sscanf` then `startSequence++`. -/
def handleStreamStartSequence (lastEventID : Option Int) : Int :=
  match lastEventID with
  | none => 0
  | some n => n + 1

/-- Lines 142–145 inside the subscription callback: an incoming envelope is
dropped before reaching the delivery loop iff
`startSequence > 0 && token.Sequence <= startSequence`. -/
def streamFilterDrops (startSequence seq : Int) : Bool :=
  startSequence > 0 && seq ≤ startSequence

/-! ## LLM stream proxy producer (`streamFromLLM` / `publishToken`)

`publishToken` stamps the current time; the timestamp is irrelevant to
every claim, so envelopes are built with timestamp 0 here. -/

/-- The envelope `publishToken` builds and publishes (lines 226–241). -/
def publishedMsg (conversationID token : String) (sequence : Int) (done : Bool) :
    TokenMessage :=
  { conversationID := conversationID, token := token, sequence := sequence,
    done := done, timestamp := 0 }

/-- One streamed choice of a vLLM chunk: its delta content and optional
finish reason (`StreamChunk` in the proxy). -/
structure LLMChoice where
  content : String
  finishReason : Option String
deriving DecidableEq, Repr

/-- One line read from the vLLM SSE body, at the level the proxy inspects it
(lines 188–222): blank or non-`data:` lines are skipped, a `data:` line is
either the `[DONE]` marker, an unparsable chunk (unmarshal failure,
skipped), or a parsed chunk with its choices. -/
inductive LLMLine
  | skipped
  | badChunk
  | doneMarker
  | chunk (choices : List LLMChoice)
deriving DecidableEq, Repr

/-- Inner loop over a chunk's choices (lines 213–222), from token counter
`seq`: returns the updated counter, the envelopes published, and whether a
`finish_reason` caused `streamFromLLM` to return. -/
def streamChoices (conversationID : String) (seq : Int) :
    List LLMChoice → Int × List TokenMessage × Bool
  | [] => (seq, [], false)
  | c :: rest =>
    let p := if c.content ≠ "" then
        (seq + 1, [publishedMsg conversationID c.content (seq + 1) false])
      else (seq, [])
    if c.finishReason.isSome then
      (p.1, p.2 ++ [publishedMsg conversationID "[DONE]" (p.1 + 1) true], true)
    else
      let r := streamChoices conversationID p.1 rest
      (r.1, p.2 ++ r.2.1, r.2.2)

/-- Outer read loop of `streamFromLLM` (lines 188–223), from token counter
`seq`.  The list ending models EOF or a read error: the loop breaks with no
further publish. -/
def streamLines (conversationID : String) (seq : Int) :
    List LLMLine → List TokenMessage
  | [] => []
  | .skipped :: rest => streamLines conversationID seq rest
  | .badChunk :: rest => streamLines conversationID seq rest
  | .doneMarker :: _ =>
    [publishedMsg conversationID "[DONE]" (seq + 1) true]
  | .chunk cs :: rest =>
    let r := streamChoices conversationID seq cs
    if r.2.2 then r.2.1 else r.2.1 ++ streamLines conversationID r.1 rest

/-- The vLLM call outcome as `streamFromLLM` branches on it: request
construction failure, transport failure, or a status with a body. -/
inductive LLMResponse
  | createError
  | transportError
  | status (code : Nat) (body : List LLMLine)
deriving DecidableEq, Repr

/-- `streamFromLLM` (lines 144–224): the full list of envelopes published
to Redis for one generation session, in publish order.  The three error
paths (request creation, transport, non-200 status) each publish a single
`[ERROR]` envelope with sequence 1 and `done = true`. -/
def streamFromLLM (conversationID : String) (resp : LLMResponse) : List TokenMessage :=
  match resp with
  | .createError => [publishedMsg conversationID "[ERROR]" 1 true]
  | .transportError => [publishedMsg conversationID "[ERROR]" 1 true]
  | .status code body =>
    if code ≠ 200 then [publishedMsg conversationID "[ERROR]" 1 true]
    else streamLines conversationID 0 body

/-- Number of `done = true` envelopes in a published list. -/
def countDone (msgs : List TokenMessage) : Nat :=
  (msgs.filter (·.done)).length

/-! ## SSE delivery loops (`sse_handler.go`)

Each handler runs one delivery loop per connection, fed by a NATS
subscription callback through a buffered channel of depth 100
(`make(chan *TokenMessage, 100)`).  The callback and the loop are
modelled as a labelled step relation over an explicit connection state;
the concurrency of callback, timers, the forwarding goroutine and the
client's context is the nondeterminism of which enabled step fires next,
exactly the nondeterminism of the Go scheduler plus `select`. -/

/-- One frame written to the client connection. -/
inductive SSEEvent
  | comment (text : String)
  | tokenEvent (t : TokenMessage)
  | connectedEvent (conversationID : String)
  | errorEvent (message : String)
deriving DecidableEq, Repr

/-- Sequence numbers of the `event: token` frames, in write order; the SSE
`id:` field of each token frame is `token.Sequence` (lines 213 and 429). -/
def tokenIds (out : List SSEEvent) : List Int :=
  out.filterMap (fun e => match e with
    | .tokenEvent t => some t.sequence
    | _ => none)

/-- Token envelopes carried by the written token frames, in write order. -/
def tokenFrames (out : List SSEEvent) : List TokenMessage :=
  out.filterMap (fun e => match e with
    | .tokenEvent t => some t
    | _ => none)

/-- Number of `event: error` frames in the written output (`HandleChat`
writes them at lines 408 and 416 only). -/
def errorCount (out : List SSEEvent) : Nat :=
  (out.filter (fun e => match e with
    | .errorEvent _ => true
    | _ => false)).length

/-- State of one `HandleStream` connection: the envelopes not yet handed to
the subscription callback, the buffered channel contents (depth 100), the
frames written so far, whether the loop has returned, and whether the
client's request context is done. -/
structure StreamState where
  pending : List TokenMessage
  queue : List TokenMessage
  output : List SSEEvent
  closed : Bool
  ctxDone : Bool
deriving DecidableEq, Repr

/-- Step labels shared by both delivery-loop models. -/
inductive StepLabel
  | arrive
  | deliver (t : TokenMessage)
  | tick
  | disconnect
  | clientGone
  | errReport (e : String)
  | errDeliver (e : String)
  | fire
deriving DecidableEq, Repr

/-- Labelled steps of one `HandleStream` connection.

Callback steps (lines 135–157): the next published envelope is dropped by
the resume filter (lines 142–145), or enqueued when the buffered channel
has room (the send case of the callback's select is then ready), or
dropped when the channel is full (the `default` case, line 151) or the
loop has returned (`doneChan` closed, line 149; when the loop has returned
and the buffer has room, Go's select picks either ready case, so both
`arriveEnq` and `arriveDropClosed` are possible there).

Loop steps (lines 186–233): `select` over context-done, the message
channel and the keep-alive ticker; no case has priority.  `deliver` writes
the token frame and returns when `token.Done` (lines 210–226);
`tick` writes the keep-alive comment (lines 228–231); `disconnect`
(lines 188–190) returns without writing.  `clientGone` is the
environment's cancellation of the request context. -/
inductive StreamStep (startSeq : Int) : StreamState → StepLabel → StreamState → Prop
  | arriveFiltered (t : TokenMessage) (rest : List TokenMessage) (s : StreamState)
      (hp : s.pending = t :: rest)
      (hf : streamFilterDrops startSeq t.sequence = true) :
      StreamStep startSeq s .arrive { s with pending := rest }
  | arriveEnq (t : TokenMessage) (rest : List TokenMessage) (s : StreamState)
      (hp : s.pending = t :: rest)
      (hf : streamFilterDrops startSeq t.sequence = false)
      (hq : s.queue.length < 100) :
      StreamStep startSeq s .arrive { s with pending := rest, queue := s.queue ++ [t] }
  | arriveDropFull (t : TokenMessage) (rest : List TokenMessage) (s : StreamState)
      (hp : s.pending = t :: rest)
      (hf : streamFilterDrops startSeq t.sequence = false)
      (hq : 100 ≤ s.queue.length) :
      StreamStep startSeq s .arrive { s with pending := rest }
  | arriveDropClosed (t : TokenMessage) (rest : List TokenMessage) (s : StreamState)
      (hp : s.pending = t :: rest)
      (hf : streamFilterDrops startSeq t.sequence = false)
      (hc : s.closed = true) :
      StreamStep startSeq s .arrive { s with pending := rest }
  | deliver (t : TokenMessage) (rest : List TokenMessage) (s : StreamState)
      (hc : s.closed = false)
      (hq : s.queue = t :: rest) :
      StreamStep startSeq s (.deliver t)
        { s with queue := rest, output := s.output ++ [SSEEvent.tokenEvent t],
                 closed := t.done }
  | tick (s : StreamState)
      (hc : s.closed = false) :
      StreamStep startSeq s .tick
        { s with output := s.output ++ [SSEEvent.comment "keep-alive"] }
  | disconnect (s : StreamState)
      (hc : s.closed = false)
      (hd : s.ctxDone = true) :
      StreamStep startSeq s .disconnect { s with closed := true }
  | clientGone (s : StreamState)
      (hd : s.ctxDone = false) :
      StreamStep startSeq s .clientGone { s with ctxDone := true }

/-- Unlabelled closure of `StreamStep`. -/
def StreamStepAny (startSeq : Int) (s s' : StreamState) : Prop :=
  ∃ l, StreamStep startSeq s l s'

/-- Initial connection state: the initial comment `: connected to {id}`
(line 178) already written, empty channel, loop running. -/
def streamInit (conversationID : String) (published : List TokenMessage) : StreamState :=
  { pending := published, queue := [],
    output := [SSEEvent.comment ("connected to " ++ conversationID)],
    closed := false, ctxDone := false }

/-- States of one `HandleStream` connection reachable from the start. -/
def StreamReach (conversationID : String) (startSeq : Int)
    (published : List TokenMessage) (s : StreamState) : Prop :=
  Relation.ReflTransGen (StreamStepAny startSeq) (streamInit conversationID published) s

/-- State of one `HandleChat` connection.  Beyond the `HandleStream`
fields: whether any token was delivered yet (`receivedFirstToken`,
line 397), whether the 30s first-token timer has delivered its fire
(`timerFired`), whether `firstTokenTimeout.Stop()` was called on a token
(`timerStopped`, line 424), the capacity-1 error channel content
(`errPending`), and whether the forwarding goroutine already reported
(`errSent` — it sends at most once, lines 359–388). -/
structure ChatState where
  pending : List TokenMessage
  queue : List TokenMessage
  output : List SSEEvent
  closed : Bool
  ctxDone : Bool
  receivedFirstToken : Bool
  timerFired : Bool
  timerStopped : Bool
  errPending : Option String
  errSent : Bool
deriving DecidableEq, Repr

/-- Labelled steps of one `HandleChat` connection.

Callback steps (lines 316–333) are as in `HandleStream` but with no
resume filter.  Loop steps (lines 400–449): context-done (402–404),
error channel (406–411, note: no `receivedFirstToken` guard — the error
frame is written and the loop returns whenever the channel delivers),
first-token timer (413–420: the error frame is written only when no token
was received yet; a fire that finds `receivedFirstToken` does nothing and
the loop continues — this also covers a fire already queued when `Stop`
came too late), token delivery (422–442, setting `receivedFirstToken`,
stopping the timer, and returning when `token.Done`), keep-alive tick
(444–447).  Environment steps: `clientGone` cancels the request context;
`errReport` is the forwarding goroutine's single send on `errChan`. -/
inductive ChatStep : ChatState → StepLabel → ChatState → Prop
  | arriveEnq (t : TokenMessage) (rest : List TokenMessage) (s : ChatState)
      (hp : s.pending = t :: rest)
      (hq : s.queue.length < 100) :
      ChatStep s .arrive { s with pending := rest, queue := s.queue ++ [t] }
  | arriveDropFull (t : TokenMessage) (rest : List TokenMessage) (s : ChatState)
      (hp : s.pending = t :: rest)
      (hq : 100 ≤ s.queue.length) :
      ChatStep s .arrive { s with pending := rest }
  | arriveDropClosed (t : TokenMessage) (rest : List TokenMessage) (s : ChatState)
      (hp : s.pending = t :: rest)
      (hc : s.closed = true) :
      ChatStep s .arrive { s with pending := rest }
  | deliver (t : TokenMessage) (rest : List TokenMessage) (s : ChatState)
      (hc : s.closed = false)
      (hq : s.queue = t :: rest) :
      ChatStep s (.deliver t)
        { s with queue := rest, output := s.output ++ [SSEEvent.tokenEvent t],
                 closed := t.done, receivedFirstToken := true, timerStopped := true }
  | tick (s : ChatState)
      (hc : s.closed = false) :
      ChatStep s .tick
        { s with output := s.output ++ [SSEEvent.comment "keep-alive"] }
  | disconnect (s : ChatState)
      (hc : s.closed = false)
      (hd : s.ctxDone = true) :
      ChatStep s .disconnect { s with closed := true }
  | clientGone (s : ChatState)
      (hd : s.ctxDone = false) :
      ChatStep s .clientGone { s with ctxDone := true }
  | errReport (e : String) (s : ChatState)
      (hs : s.errSent = false) :
      ChatStep s (.errReport e) { s with errPending := some e, errSent := true }
  | errDeliver (e : String) (s : ChatState)
      (hc : s.closed = false)
      (he : s.errPending = some e) :
      ChatStep s (.errDeliver e)
        { s with errPending := none,
                 output := s.output ++ [SSEEvent.errorEvent e], closed := true }
  | fireNoToken (s : ChatState)
      (hc : s.closed = false)
      (ht : s.timerFired = false)
      (hr : s.receivedFirstToken = false) :
      ChatStep s .fire
        { s with timerFired := true,
                 output := s.output ++ [SSEEvent.errorEvent "timeout waiting for response"],
                 closed := true }
  | fireAfterToken (s : ChatState)
      (hc : s.closed = false)
      (ht : s.timerFired = false)
      (hr : s.receivedFirstToken = true) :
      ChatStep s .fire { s with timerFired := true }

/-- Unlabelled closure of `ChatStep`. -/
def ChatStepAny (s s' : ChatState) : Prop :=
  ∃ l, ChatStep s l s'

/-- State of a `HandleChat` connection on entering the delivery loop: the
`event: connected` frame (lines 354–356) is already the sole output. -/
def chatInit (conversationID : String) (published : List TokenMessage) : ChatState :=
  { pending := published, queue := [],
    output := [SSEEvent.connectedEvent conversationID],
    closed := false, ctxDone := false, receivedFirstToken := false,
    timerFired := false, timerStopped := false, errPending := none, errSent := false }

/-- States of one `HandleChat` connection reachable from loop entry. -/
def ChatReach (conversationID : String) (published : List TokenMessage)
    (s : ChatState) : Prop :=
  Relation.ReflTransGen ChatStepAny (chatInit conversationID published) s

/-! ## `HandleChat` setup phase and adapter configuration -/

/-- Adapter configuration (`Config` in the sse-adapter main file). -/
structure AdapterConfig where
  natsUrl : String
  ssePort : String
  metricsPort : String
  inspectionMode : String
  inspectionBufferMs : Int
  inspectionEndpoint : String
  logLevel : String
  llmProxyURL : String
deriving DecidableEq, Repr

/-- `getDurationEnv`: parses the value suffixed with `ms` when the variable
is set and non-empty and the parse succeeds (parseDur is the
`time.ParseDuration` oracle, yielding milliseconds), else the default. -/
def getDurationEnv (env : String → String) (parseDur : String → Option Int)
    (key : String) (defaultVal : Int) : Int :=
  if env key ≠ "" then
    match parseDur (env key ++ "ms") with
    | some d => d
    | none => defaultVal
  else defaultVal

/-- `loadConfig` of the sse-adapter (lines 479–490): in particular
`LLMProxyURL` defaults to the empty string. -/
def adapterLoadConfig (env : String → String) (parseDur : String → Option Int) :
    AdapterConfig :=
  { natsUrl := getEnv env "NATS_URL" "nats://localhost:4222"
    ssePort := getEnv env "SSE_PORT" "8080"
    metricsPort := getEnv env "METRICS_PORT" "9090"
    inspectionMode := getEnv env "INSPECTION_MODE" "disabled"
    inspectionBufferMs := getDurationEnv env parseDur "INSPECTION_BUFFER_MS" 150
    inspectionEndpoint := getEnv env "INSPECTION_ENDPOINT" ""
    logLevel := getEnv env "LOG_LEVEL" "info"
    llmProxyURL := getEnv env "LLM_PROXY_URL" "" }

/-- The request body of `POST /chat` as the handler sees it after
`json.NewDecoder(r.Body).Decode`: a decode failure or the decoded
`{message, conversation_id}` (`conversation_id` empty when omitted). -/
inductive ChatBody
  | malformed
  | ok (message : String) (conversationID : String)
deriving DecidableEq, Repr

/-- Externally visible actions of `HandleChat` before its delivery loop:
an immediate HTTP error response, the CORS preflight answer, the NATS
subscribe call, the `event: connected` write, the launch of the forwarding
goroutine (carrying the proxy URL, conversation id and message), and entry
into the delivery loop. -/
inductive ChatAction
  | httpError (status : Nat) (message : String)
  | corsPreflight
  | subscribeTopic (subject : String)
  | writeConnected (conversationID : String)
  | forwardToOrigin (proxyURL : String) (conversationID : String) (message : String)
  | enterLoop (conversationID : String)
deriving DecidableEq, Repr

/-- The setup phase of `HandleChat` (`sse_handler.go` lines 239–356 plus the
goroutine launch at 359), as its ordered action trace.  `flusherOk` is
whether the response writer supports `http.Flusher`; `subOk` whether
`nc.Subscribe` succeeds; `freshID` the `uuid.New().String()` drawn when the
caller supplied no conversation id. -/
def handleChatSetup (cfg : AdapterConfig) (method : String) (body : ChatBody)
    (flusherOk : Bool) (subOk : Bool) (freshID : String) : List ChatAction :=
  if method ≠ "POST" then
    if method = "OPTIONS" then [.corsPreflight]
    else [.httpError 405 "Method not allowed"]
  else if cfg.llmProxyURL = "" then
    [.httpError 503 "LLM proxy not configured"]
  else
    match body with
    | .malformed => [.httpError 400 "Invalid JSON body"]
    | .ok message reqConversationID =>
      if message = "" then [.httpError 400 "message is required"]
      else
        let conversationID := if reqConversationID = "" then freshID
          else reqConversationID
        if flusherOk = false then [.httpError 500 "SSE not supported"]
        else if subOk = false then
          [.subscribeTopic (tokenSubject conversationID),
           .httpError 500 "Failed to subscribe"]
        else
          [.subscribeTopic (tokenSubject conversationID),
           .writeConnected conversationID,
           .forwardToOrigin cfg.llmProxyURL conversationID message,
           .enterLoop conversationID]

/-! ## Concrete envelopes and connection states used in the closed theorems -/

/-- A plain token envelope, sequence 1. -/
def exTok : TokenMessage :=
  { conversationID := "c1", token := "hi", sequence := 1, done := false, timestamp := 0 }

/-- A terminal envelope, sequence 1. -/
def exDoneOnly : TokenMessage :=
  { conversationID := "c1", token := "[DONE]", sequence := 1, done := true, timestamp := 0 }

/-- An envelope with sequence 6, the first one published after a client that
saw sequence 5 reconnects. -/
def exSeq6 : TokenMessage :=
  { conversationID := "c1", token := "x", sequence := 6, done := false, timestamp := 0 }

/-- `HandleStream` connection state: client context already cancelled while
one envelope sits in the channel buffer. -/
def exDisconnectReady : StreamState :=
  { pending := [], queue := [exTok],
    output := [SSEEvent.comment ("connected to " ++ "c1")],
    closed := false, ctxDone := true }

/-- The state after the loop selects the envelope case from
`exDisconnectReady` and writes the token frame. -/
def exAfterDeliver : StreamState :=
  { pending := [], queue := [],
    output := [SSEEvent.comment ("connected to " ++ "c1"), SSEEvent.tokenEvent exTok],
    closed := false, ctxDone := true }

/-- `HandleStream` connection state right after delivering a terminal
envelope: the `done = true` token frame is written and the loop returned. -/
def exDoneDelivered : StreamState :=
  { pending := [], queue := [],
    output := [SSEEvent.comment ("connected to " ++ "c1"), SSEEvent.tokenEvent exDoneOnly],
    closed := true, ctxDone := false }

/-- `HandleStream` connection state after one ordinary token was delivered. -/
def exTokDelivered : StreamState :=
  { pending := [], queue := [],
    output := [SSEEvent.comment ("connected to " ++ "c1"), SSEEvent.tokenEvent exTok],
    closed := false, ctxDone := false }

/-- `HandleChat` connection state: one token already delivered to the
client, then the forwarding goroutine reported an error on `errChan`. -/
def exChatErrReady : ChatState :=
  { pending := [], queue := [],
    output := [SSEEvent.connectedEvent "c1", SSEEvent.tokenEvent exTok],
    closed := false, ctxDone := false, receivedFirstToken := true,
    timerFired := false, timerStopped := true,
    errPending := some "connection refused", errSent := true }

/-- The state after the loop selects the error-channel case from
`exChatErrReady`: the error frame is written and the loop returns. -/
def exChatErrDone : ChatState :=
  { pending := [], queue := [],
    output := [SSEEvent.connectedEvent "c1", SSEEvent.tokenEvent exTok,
               SSEEvent.errorEvent "connection refused"],
    closed := true, ctxDone := false, receivedFirstToken := true,
    timerFired := false, timerStopped := true,
    errPending := none, errSent := true }

/-- Consecutive sequence numbers `[s+1, s+2, ..., s+k]`: the shape of the
sequence numbers `streamFromLLM` hands to `publishToken`, which assigns
each publish exactly one more than the previous. -/
def consecSeq : Int → Nat → List Int
  | _, 0 => []
  | s, k + 1 => (s + 1) :: consecSeq (s + 1) k

/-- Well-formedness of a published envelope list produced from token
counter `s`: the sequence numbers are exactly the consecutive run starting
at `s + 1`, and every envelope but possibly the last has `done = false`. -/
def SeqOK (s : Int) (out : List TokenMessage) : Prop :=
  out.map (·.sequence) = consecSeq s out.length ∧
  ∀ m ∈ out.dropLast, m.done = false

/-- An adapter configuration with the LLM proxy configured. -/
def exCfg : AdapterConfig :=
  { natsUrl := "nats://localhost:4222", ssePort := "8080", metricsPort := "9090",
    inspectionMode := "disabled", inspectionBufferMs := 150,
    inspectionEndpoint := "", logLevel := "info", llmProxyURL := "http://origin" }

/-! # Helper lemmas -/

theorem tokenIds_append (xs ys : List SSEEvent) :
    tokenIds (xs ++ ys) = tokenIds xs ++ tokenIds ys := by
  simp [tokenIds, List.filterMap_append]

theorem tokenFrames_append (xs ys : List SSEEvent) :
    tokenFrames (xs ++ ys) = tokenFrames xs ++ tokenFrames ys := by
  simp [tokenFrames, List.filterMap_append]

theorem errorCount_append (xs ys : List SSEEvent) :
    errorCount (xs ++ ys) = errorCount xs + errorCount ys := by
  simp [errorCount, List.filter_append]

/-- Once a `HandleStream` loop has returned, no step changes the written
output, and the loop stays returned. -/
theorem streamStep_closed {k : Int} {s s' : StreamState} {l : StepLabel}
    (h : StreamStep k s l s') (hc : s.closed = true) :
    s'.output = s.output ∧ s'.closed = true := by
  cases h <;> simp_all

theorem streamReach_closed {k : Int} {s s₂ : StreamState}
    (h : Relation.ReflTransGen (StreamStepAny k) s s₂) (hc : s.closed = true) :
    s₂.output = s.output ∧ s₂.closed = true := by
  induction h with
  | refl => exact ⟨rfl, hc⟩
  | tail _ hstep ih =>
    obtain ⟨l, hstep⟩ := hstep
    obtain ⟨ho, hcl⟩ := ih
    obtain ⟨ho2, hcl2⟩ := streamStep_closed hstep hcl
    exact ⟨ho2.trans ho, hcl2⟩

/-- Once a `HandleChat` loop has returned, no step changes the written
output, and the loop stays returned. -/
theorem chatStep_closed {s s' : ChatState} {l : StepLabel}
    (h : ChatStep s l s') (hc : s.closed = true) :
    s'.output = s.output ∧ s'.closed = true := by
  cases h <;> simp_all

theorem chatReach_closed {s s₂ : ChatState}
    (h : Relation.ReflTransGen ChatStepAny s s₂) (hc : s.closed = true) :
    s₂.output = s.output ∧ s₂.closed = true := by
  induction h with
  | refl => exact ⟨rfl, hc⟩
  | tail _ hstep ih =>
    obtain ⟨l, hstep⟩ := hstep
    obtain ⟨ho, hcl⟩ := ih
    obtain ⟨ho2, hcl2⟩ := chatStep_closed hstep hcl
    exact ⟨ho2.trans ho, hcl2⟩

/-! # Claims -/

/-- Invariant of the reconnect-after-5 scenario of `HandleStream`: with
`Last-Event-ID: 5` the code's filter drops the sequence-6 envelope in the
subscription callback, so the channel stays empty and no token frame is
ever written, under every scheduling. -/
theorem streamReach_resume5_inv (s : StreamState)
    (h : Relation.ReflTransGen (StreamStepAny (handleStreamStartSequence (some 5)))
      (streamInit "c1" [exSeq6]) s) :
    tokenIds s.output = [] ∧ s.queue = [] ∧ (s.pending = [exSeq6] ∨ s.pending = []) := by
  induction h with
  | refl => refine ⟨rfl, rfl, Or.inl rfl⟩
  | tail _ hstep ih =>
    obtain ⟨ho, hq, hp⟩ := ih
    obtain ⟨l, hstep⟩ := hstep
    cases hstep with
    | arriveFiltered t rest s hps hf =>
      refine ⟨ho, hq, ?_⟩
      rcases hp with hp | hp
      · rw [hp] at hps
        simp at hps
        exact Or.inr (by simp [hps.2])
      · rw [hp] at hps; simp at hps
    | arriveEnq t rest s hps hf hqlt =>
      exfalso
      rcases hp with hp | hp
      · rw [hp] at hps
        simp at hps
        rw [← hps.1] at hf
        exact absurd hf (by decide)
      · rw [hp] at hps; simp at hps
    | arriveDropFull t rest s hps hf hge =>
      exfalso
      rw [hq] at hge
      simp at hge
    | arriveDropClosed t rest s hps hf hc =>
      refine ⟨ho, hq, ?_⟩
      rcases hp with hp | hp
      · rw [hp] at hps
        simp at hps
        exact Or.inr (by simp [hps.2])
      · rw [hp] at hps; simp at hps
    | deliver t rest s hc hqs =>
      exfalso
      rw [hq] at hqs
      simp at hqs
    | tick s hc =>
      refine ⟨?_, hq, hp⟩
      rw [tokenIds_append, ho]
      rfl
    | disconnect s hc hd => exact ⟨ho, hq, hp⟩
    | clientGone s hd => exact ⟨ho, hq, hp⟩

/-- C1: the claim says a client reconnecting with `Last-Event-ID: N`
receives every envelope with `sequence > N`; the code computes
`startSequence = N + 1` and then drops every envelope with
`sequence <= startSequence` (not `< startSequence`), so the envelope with
sequence `N + 1` is dropped by the filter and can never be delivered:
with `Last-Event-ID: 5`, the sequence-6 envelope is never written to the
client under any scheduling. -/
theorem handleStream_resume_drops_next_envelope :
    handleStreamStartSequence (some 5) = 6 ∧
    (5 : Int) < exSeq6.sequence ∧
    streamFilterDrops (handleStreamStartSequence (some 5)) exSeq6.sequence = true ∧
    ∀ s, StreamReach "c1" (handleStreamStartSequence (some 5)) [exSeq6] s →
      tokenIds s.output = [] := by
  refine ⟨by decide, by decide, by decide, ?_⟩
  intro s h
  exact (streamReach_resume5_inv s h).1

/-- Witness for the reachability hypothesis of
`handleStream_resume_drops_next_envelope`, at the initial state. -/
theorem handleStream_resume_drops_next_envelope_witness :
    tokenIds (streamInit "c1" [exSeq6]).output = [] :=
  handleStream_resume_drops_next_envelope.2.2.2 (streamInit "c1" [exSeq6])
    Relation.ReflTransGen.refl

/-- C2 counterexample: the bridge's processing loop republishes every
decoded envelope unconditionally — receiving the same
`(conversation_id, sequence)` envelope twice (here back-to-back, hence
within any dedupe window) produces two republishes, not at most one. -/
theorem bridge_republishes_duplicate :
    countPub "c1" 1 (bridgeRun [(some exTok, false), (some exTok, false)]) = 2 ∧
    ¬ countPub "c1" 1 (bridgeRun [(some exTok, false), (some exTok, false)]) ≤ 1 := by
  constructor <;> decide

/-- C2 amended: the bridge republishes every successfully decoded and
published receipt, duplicates included — `n` receipts of the same envelope
yield exactly `n` republishes.  The `DEDUPE_WINDOW_SEC` configuration
(default 30) is loaded by `loadConfig` but never consulted by the loop. -/
theorem bridge_republishes_every_receipt (n : Nat) (t : TokenMessage) :
    countPub t.conversationID t.sequence
      (bridgeRun (List.replicate n (some t, false))) = n ∧
    (bridgeLoadConfig (fun _ => "") (fun _ => none) "bridge-1").dedupeWindowSec = 30 := by
  refine ⟨?_, by decide⟩
  induction n with
  | zero => rfl
  | succ n ih =>
    rw [List.replicate_succ]
    simp only [bridgeRun, List.filterMap_cons] at ih ⊢
    simp only [bridgeStep]
    simp only [countPub, List.filter_cons, Bool.decide_and] at ih ⊢
    simp [ih]

theorem tokenIds_eq_map (out : List SSEEvent) :
    tokenIds out = (tokenFrames out).map (·.sequence) := by
  induction out with
  | nil => rfl
  | cons e rest ih =>
    cases e <;> simp [tokenIds, tokenFrames, List.filterMap_cons] at ih ⊢ <;> exact ih

/-- Delivered frames plus buffered envelopes plus not-yet-arrived envelopes
always form a sublist of the published list: neither the callback nor the
loop reorders or duplicates. -/
theorem streamReach_sublist {cid : String} {k : Int} {pub : List TokenMessage}
    {s : StreamState}
    (h : Relation.ReflTransGen (StreamStepAny k) (streamInit cid pub) s) :
    List.Sublist (tokenFrames s.output ++ s.queue ++ s.pending) pub := by
  induction h with
  | refl => simp [streamInit, tokenFrames]
  | tail _ hstep ih =>
    obtain ⟨l, hstep⟩ := hstep
    cases hstep with
    | arriveFiltered t rest s hps hf =>
      rw [hps] at ih
      refine List.Sublist.trans ?_ ih
      simp only [List.append_assoc]
      exact List.Sublist.append_left
        (List.Sublist.append_left ((List.Sublist.refl rest).cons t) _) _
    | arriveEnq t rest s hps hf hq =>
      rw [hps] at ih
      simpa [List.append_assoc] using ih
    | arriveDropFull t rest s hps hf hq =>
      rw [hps] at ih
      refine List.Sublist.trans ?_ ih
      simp only [List.append_assoc]
      exact List.Sublist.append_left
        (List.Sublist.append_left ((List.Sublist.refl rest).cons t) _) _
    | arriveDropClosed t rest s hps hf hc =>
      rw [hps] at ih
      refine List.Sublist.trans ?_ ih
      simp only [List.append_assoc]
      exact List.Sublist.append_left
        (List.Sublist.append_left ((List.Sublist.refl rest).cons t) _) _
    | deliver t rest s hc hq =>
      rw [hq] at ih
      simpa [tokenFrames_append, tokenFrames, List.append_assoc] using ih
    | tick s hc =>
      simpa [tokenFrames_append, tokenFrames] using ih
    | disconnect s hc hd => exact ih
    | clientGone s hd => exact ih

/-- C3 (confirmed): for envelopes published with strictly increasing
sequence numbers, the `id` values of the token frames a `HandleStream`
client observes are a strictly increasing sublist of the published
sequence numbers — possibly incomplete (queue-full drops, resume filter),
never reordered, never duplicated. -/
theorem stream_token_ids_strictly_increasing
    (cid : String) (k : Int) (pub : List TokenMessage) (s : StreamState)
    (hmono : List.Chain' (· < ·) (pub.map (·.sequence)))
    (hreach : StreamReach cid k pub s) :
    List.Chain' (· < ·) (tokenIds s.output) ∧
    List.Sublist (tokenIds s.output) (pub.map (·.sequence)) := by
  have h : Relation.ReflTransGen (StreamStepAny k) (streamInit cid pub) s := hreach
  have hsub := streamReach_sublist h
  have hframes : List.Sublist (tokenFrames s.output) pub := by
    refine List.Sublist.trans ?_ hsub
    rw [List.append_assoc]
    exact List.sublist_append_left (tokenFrames s.output) (s.queue ++ s.pending)
  have hmap : List.Sublist (tokenIds s.output) (pub.map (·.sequence)) := by
    rw [tokenIds_eq_map]
    exact hframes.map _
  have hpw := List.chain'_iff_pairwise.mp hmono
  exact ⟨List.chain'_iff_pairwise.mpr (hpw.sublist hmap), hmap⟩

/-- Witness for `stream_token_ids_strictly_increasing`: one envelope
published, enqueued and delivered. -/
theorem stream_token_ids_strictly_increasing_witness :
    List.Chain' (· < ·) (tokenIds exTokDelivered.output) ∧
    List.Sublist (tokenIds exTokDelivered.output) ([exTok].map (·.sequence)) :=
  stream_token_ids_strictly_increasing "c1" 0 [exTok] exTokDelivered (by simp)
    (Relation.ReflTransGen.tail
      (Relation.ReflTransGen.tail Relation.ReflTransGen.refl
        ⟨.arrive, StreamStep.arriveEnq exTok [] (streamInit "c1" [exTok]) rfl
          (by decide) (by decide)⟩)
      ⟨.deliver exTok, StreamStep.deliver exTok [] _ rfl rfl⟩)

/-- In an open `HandleStream` connection, no written token frame carries
`done = true`: delivering a terminal frame returns from the loop at once. -/
theorem streamReach_open_no_done {cid : String} {k : Int} {pub : List TokenMessage}
    {s : StreamState}
    (h : Relation.ReflTransGen (StreamStepAny k) (streamInit cid pub) s)
    (hc : s.closed = false) :
    ∀ t, SSEEvent.tokenEvent t ∈ s.output → t.done = false := by
  induction h with
  | refl => intro t ht; simp [streamInit] at ht
  | tail _ hstep ih =>
    obtain ⟨l, hstep⟩ := hstep
    cases hstep with
    | arriveFiltered t rest s hps hf => exact fun t ht => ih (by simpa using hc) t ht
    | arriveEnq t rest s hps hf hq => exact fun t ht => ih (by simpa using hc) t ht
    | arriveDropFull t rest s hps hf hq => exact fun t ht => ih (by simpa using hc) t ht
    | arriveDropClosed t rest s hps hf hcs => exact fun t ht => ih (by simpa using hc) t ht
    | deliver t rest s hcs hq =>
      intro u hu
      simp only at hu
      rw [List.mem_append] at hu
      rcases hu with hu | hu
      · exact ih hcs u hu
      · simp at hu
        rw [hu]
        simpa using hc
    | tick s hcs =>
      intro u hu
      simp only at hu
      rw [List.mem_append] at hu
      rcases hu with hu | hu
      · exact ih hcs u hu
      · simp at hu
    | disconnect s hcs hd => simp at hc
    | clientGone s hd => exact fun t ht => ih (by simpa using hc) t ht

/-- In an open `HandleChat` connection, no written token frame carries
`done = true`. -/
theorem chatReach_open_no_done {cid : String} {pub : List TokenMessage}
    {s : ChatState}
    (h : Relation.ReflTransGen ChatStepAny (chatInit cid pub) s)
    (hc : s.closed = false) :
    ∀ t, SSEEvent.tokenEvent t ∈ s.output → t.done = false := by
  induction h with
  | refl => intro t ht; simp [chatInit] at ht
  | tail _ hstep ih =>
    obtain ⟨l, hstep⟩ := hstep
    cases hstep with
    | arriveEnq t rest s hps hq => exact fun t ht => ih (by simpa using hc) t ht
    | arriveDropFull t rest s hps hq => exact fun t ht => ih (by simpa using hc) t ht
    | arriveDropClosed t rest s hps hcs => exact fun t ht => ih (by simpa using hc) t ht
    | deliver t rest s hcs hq =>
      intro u hu
      simp only at hu
      rw [List.mem_append] at hu
      rcases hu with hu | hu
      · exact ih hcs u hu
      · simp at hu
        rw [hu]
        simpa using hc
    | tick s hcs =>
      intro u hu
      simp only at hu
      rw [List.mem_append] at hu
      rcases hu with hu | hu
      · exact ih hcs u hu
      · simp at hu
    | disconnect s hcs hd => simp at hc
    | clientGone s hd => exact fun t ht => ih (by simpa using hc) t ht
    | errReport e s hs => exact fun t ht => ih (by simpa using hc) t ht
    | errDeliver e s hcs he => simp at hc
    | fireNoToken s hcs ht0 hr => simp at hc
    | fireAfterToken s hcs ht0 hr => exact fun t ht => ih (by simpa using hc) t ht

/-- C7 (confirmed): on both handlers, once a `done = true` token frame has
been written, the loop has returned: no step — token delivery, keep-alive,
error or anything else — ever extends the output again. -/
theorem done_event_is_final :
    (∀ (cid : String) (k : Int) (pub : List TokenMessage) (s s' : StreamState)
        (l : StepLabel),
      StreamReach cid k pub s →
      (∃ t, SSEEvent.tokenEvent t ∈ s.output ∧ t.done = true) →
      StreamStep k s l s' → s'.output = s.output ∧ s'.closed = true) ∧
    (∀ (cid : String) (pub : List TokenMessage) (s s' : ChatState) (l : StepLabel),
      ChatReach cid pub s →
      (∃ t, SSEEvent.tokenEvent t ∈ s.output ∧ t.done = true) →
      ChatStep s l s' → s'.output = s.output ∧ s'.closed = true) := by
  constructor
  · intro cid k pub s s' l hreach hdone hstep
    have h : Relation.ReflTransGen (StreamStepAny k) (streamInit cid pub) s := hreach
    have hc : s.closed = true := by
      by_contra hcf
      obtain ⟨t, hmem, htd⟩ := hdone
      have := streamReach_open_no_done h (by simpa using hcf) t hmem
      rw [htd] at this
      simp at this
    exact streamStep_closed hstep hc
  · intro cid pub s s' l hreach hdone hstep
    have h : Relation.ReflTransGen ChatStepAny (chatInit cid pub) s := hreach
    have hc : s.closed = true := by
      by_contra hcf
      obtain ⟨t, hmem, htd⟩ := hdone
      have := chatReach_open_no_done h (by simpa using hcf) t hmem
      rw [htd] at this
      simp at this
    exact chatStep_closed hstep hc

/-- Witness for `done_event_is_final`: a terminal envelope was delivered on
a `HandleStream` connection; a subsequent environment step (the client
context being cancelled) leaves the output untouched. -/
theorem done_event_is_final_witness :
    ({ exDoneDelivered with ctxDone := true } : StreamState).output =
      exDoneDelivered.output ∧
    ({ exDoneDelivered with ctxDone := true } : StreamState).closed = true :=
  done_event_is_final.1 "c1" 0 [exDoneOnly] exDoneDelivered
    { exDoneDelivered with ctxDone := true } .clientGone
    (Relation.ReflTransGen.tail
      (Relation.ReflTransGen.tail Relation.ReflTransGen.refl
        ⟨.arrive, StreamStep.arriveEnq exDoneOnly [] (streamInit "c1" [exDoneOnly]) rfl
          (by decide) (by decide)⟩)
      ⟨.deliver exDoneOnly, StreamStep.deliver exDoneOnly [] _ rfl rfl⟩)
    ⟨exDoneOnly, by decide, rfl⟩
    (StreamStep.clientGone exDoneDelivered rfl)

/-- One step preserves the error-frame accounting bound. -/
theorem chatStep_error_bound {s s' : ChatState} {l : StepLabel}
    (h : ChatStep s l s')
    (ih1 : errorCount s.output ≤ 1)
    (ih2 : s.closed = false → errorCount s.output = 0) :
    errorCount s'.output ≤ 1 ∧ (s'.closed = false → errorCount s'.output = 0) := by
  cases h with
  | arriveEnq t rest hps hq => exact ⟨ih1, fun hcf => ih2 (by simpa using hcf)⟩
  | arriveDropFull t rest hps hq => exact ⟨ih1, fun hcf => ih2 (by simpa using hcf)⟩
  | arriveDropClosed t rest hps hc => exact ⟨ih1, fun hcf => ih2 (by simpa using hcf)⟩
  | deliver t rest hc hq =>
    have he : errorCount (s.output ++ [SSEEvent.tokenEvent t]) = errorCount s.output := by
      rw [errorCount_append]; rfl
    refine ⟨?_, fun _ => ?_⟩
    · show errorCount (s.output ++ [SSEEvent.tokenEvent t]) ≤ 1
      rw [he]; exact ih1
    · show errorCount (s.output ++ [SSEEvent.tokenEvent t]) = 0
      rw [he]; exact ih2 (by assumption)
  | tick hc =>
    have he : errorCount (s.output ++ [SSEEvent.comment "keep-alive"]) =
        errorCount s.output := by
      rw [errorCount_append]; rfl
    refine ⟨?_, fun _ => ?_⟩
    · show errorCount (s.output ++ [SSEEvent.comment "keep-alive"]) ≤ 1
      rw [he]; exact ih1
    · show errorCount (s.output ++ [SSEEvent.comment "keep-alive"]) = 0
      rw [he]; exact ih2 (by assumption)
  | disconnect hc hd => exact ⟨ih1, fun hcf => by simp at hcf⟩
  | clientGone hd => exact ⟨ih1, fun hcf => ih2 (by simpa using hcf)⟩
  | errReport e hs => exact ⟨ih1, fun hcf => ih2 (by simpa using hcf)⟩
  | errDeliver e hc he =>
    have h0 := ih2 (by assumption)
    have he2 : errorCount (s.output ++ [SSEEvent.errorEvent e]) =
        errorCount s.output + 1 := by
      rw [errorCount_append]; rfl
    refine ⟨?_, fun hcf => by simp at hcf⟩
    show errorCount (s.output ++ [SSEEvent.errorEvent e]) ≤ 1
    rw [he2, h0]
  | fireNoToken hc ht hr =>
    have h0 := ih2 (by assumption)
    have he2 : errorCount
        (s.output ++ [SSEEvent.errorEvent "timeout waiting for response"]) =
        errorCount s.output + 1 := by
      rw [errorCount_append]; rfl
    refine ⟨?_, fun hcf => by simp at hcf⟩
    show errorCount (s.output ++ [SSEEvent.errorEvent "timeout waiting for response"]) ≤ 1
    rw [he2, h0]
  | fireAfterToken hc ht hr => exact ⟨ih1, fun hcf => ih2 (by simpa using hcf)⟩

/-- Error-frame accounting on a `HandleChat` connection: an open connection
has written no error frame, and no connection ever writes more than one
(both error writers — the error channel and the first-token timeout —
return from the loop immediately after writing). -/
theorem chatReach_error_bound {cid : String} {pub : List TokenMessage} {s : ChatState}
    (h : Relation.ReflTransGen ChatStepAny (chatInit cid pub) s) :
    errorCount s.output ≤ 1 ∧ (s.closed = false → errorCount s.output = 0) := by
  induction h with
  | refl =>
    have h0 : errorCount (chatInit cid pub).output = 0 := rfl
    exact ⟨by rw [h0]; exact Nat.zero_le 1, fun _ => h0⟩
  | tail _ hstep ih =>
    obtain ⟨l, hstep⟩ := hstep
    exact chatStep_error_bound hstep ih.1 ih.2

/-- `receivedFirstToken` is monotone: once a token has been delivered the
flag never reverts. -/
theorem chatStep_rFT {s s' : ChatState} {l : StepLabel}
    (h : ChatStep s l s') (hr : s.receivedFirstToken = true) :
    s'.receivedFirstToken = true := by
  cases h <;> simp_all

theorem chatReach_rFT {s s₂ : ChatState}
    (h : Relation.ReflTransGen ChatStepAny s s₂)
    (hr : s.receivedFirstToken = true) :
    s₂.receivedFirstToken = true := by
  induction h with
  | refl => exact hr
  | tail _ hstep ih =>
    obtain ⟨l, hstep⟩ := hstep
    exact chatStep_rFT hstep ih

/-- C6 (confirmed): on the orchestrator path, (i) an open connection has
written no error frame and no connection ever writes more than one; (ii) a
first-token-timer fire with no token received writes exactly the timeout
error frame and closes the connection; (iii) a fire after a token has been
received writes nothing; (iv) delivering a token records the first token
and stops the timer; (v) the received-first-token flag persists for the
rest of the connection; (vi) after the loop closes, nothing further is
ever written. -/
theorem chat_first_token_timeout :
    (∀ (cid : String) (pub : List TokenMessage) (s : ChatState),
      ChatReach cid pub s →
      errorCount s.output ≤ 1 ∧ (s.closed = false → errorCount s.output = 0)) ∧
    (∀ (s s' : ChatState), ChatStep s .fire s' → s.receivedFirstToken = false →
      s'.output = s.output ++ [SSEEvent.errorEvent "timeout waiting for response"] ∧
      s'.closed = true) ∧
    (∀ (s s' : ChatState), ChatStep s .fire s' → s.receivedFirstToken = true →
      s'.output = s.output) ∧
    (∀ (s : ChatState) (t : TokenMessage) (s' : ChatState),
      ChatStep s (.deliver t) s' →
      s'.receivedFirstToken = true ∧ s'.timerStopped = true) ∧
    (∀ (s s₂ : ChatState), s.receivedFirstToken = true →
      Relation.ReflTransGen ChatStepAny s s₂ → s₂.receivedFirstToken = true) ∧
    (∀ (s s₂ : ChatState), s.closed = true →
      Relation.ReflTransGen ChatStepAny s s₂ → s₂.output = s.output) := by
  refine ⟨?_, ?_, ?_, ?_, ?_, ?_⟩
  · intro cid pub s hreach
    exact chatReach_error_bound hreach
  · intro s s' h hr
    cases h with
    | fireNoToken s1 hc ht hr2 => exact ⟨rfl, rfl⟩
    | fireAfterToken s1 hc ht hr2 => rw [hr2] at hr; exact absurd hr (by simp)
  · intro s s' h hr
    cases h with
    | fireNoToken s1 hc ht hr2 => rw [hr2] at hr; exact absurd hr (by simp)
    | fireAfterToken s1 hc ht hr2 => rfl
  · intro s t s' h
    cases h with
    | deliver t rest s1 hc hq => exact ⟨rfl, rfl⟩
  · intro s s₂ hr h
    exact chatReach_rFT h hr
  · intro s s₂ hc h
    exact (chatReach_closed h hc).1

/-- Witness for `chat_first_token_timeout`: a freshly opened orchestrator
connection has no error frame, and the fire with no token writes exactly
the timeout error. -/
theorem chat_first_token_timeout_witness :
    errorCount (chatInit "c1" ([] : List TokenMessage)).output = 0 :=
  (chat_first_token_timeout.1 "c1" [] _ Relation.ReflTransGen.refl).2 rfl

/-- A `HandleChat` connection that delivered one token and then saw the
forwarding goroutine report a failure on the error channel is reachable. -/
theorem exChatErrReady_reach : ChatReach "c1" [exTok] exChatErrReady :=
  Relation.ReflTransGen.tail
    (Relation.ReflTransGen.tail
      (Relation.ReflTransGen.tail Relation.ReflTransGen.refl
        ⟨.arrive, ChatStep.arriveEnq exTok [] (chatInit "c1" [exTok]) rfl (by decide)⟩)
      ⟨.deliver exTok, ChatStep.deliver exTok [] _ rfl rfl⟩)
    ⟨.errReport "connection refused", ChatStep.errReport "connection refused" _ rfl⟩

/-- C5 counterexample: the error-channel case of the `HandleChat` loop has
no received-first-token guard — in a reachable state where a token has
already been delivered, a forwarding failure still writes an error frame
and terminates the stream, contradicting the claim that it would do
neither. -/
theorem chat_error_after_token_counterexample :
    ChatReach "c1" [exTok] exChatErrReady ∧
    exChatErrReady.receivedFirstToken = true ∧
    tokenFrames exChatErrReady.output = [exTok] ∧
    ChatStep exChatErrReady (.errDeliver "connection refused") exChatErrDone ∧
    exChatErrDone.output =
      exChatErrReady.output ++ [SSEEvent.errorEvent "connection refused"] ∧
    exChatErrDone.closed = true :=
  ⟨exChatErrReady_reach, rfl, by decide,
   ChatStep.errDeliver "connection refused" exChatErrReady rfl rfl, by decide, rfl⟩

/-- C5 amended: whenever the loop is still open and the forwarding error
channel holds a report, the loop can select it, writes the error frame and
closes the stream — regardless of whether tokens were already delivered;
afterwards nothing more is written. -/
theorem chat_error_channel_always_closes
    (cid : String) (pub : List TokenMessage) (s : ChatState) (e : String)
    (hreach : ChatReach cid pub s) (hopen : s.closed = false)
    (he : s.errPending = some e) :
    ChatStep s (.errDeliver e)
      { s with errPending := none,
               output := s.output ++ [SSEEvent.errorEvent e], closed := true } ∧
    ∀ s₂, Relation.ReflTransGen ChatStepAny
        { s with errPending := none,
                 output := s.output ++ [SSEEvent.errorEvent e], closed := true } s₂ →
      s₂.output = s.output ++ [SSEEvent.errorEvent e] := by
  refine ⟨ChatStep.errDeliver e s hopen he, ?_⟩
  intro s₂ h2
  exact (chatReach_closed h2 rfl).1

/-- Witness for `chat_error_channel_always_closes` at the concrete
post-token state. -/
theorem chat_error_channel_always_closes_witness :
    ChatStep exChatErrReady (.errDeliver "connection refused") exChatErrDone :=
  (chat_error_channel_always_closes "c1" [exTok] exChatErrReady "connection refused"
    exChatErrReady_reach rfl rfl).1

/-- A `HandleStream` connection whose client has already gone away while an
envelope sits ready in the channel buffer is reachable. -/
theorem exDisconnectReady_reach : StreamReach "c1" 0 [exTok] exDisconnectReady :=
  Relation.ReflTransGen.tail
    (Relation.ReflTransGen.tail Relation.ReflTransGen.refl
      ⟨.clientGone, StreamStep.clientGone (streamInit "c1" [exTok]) rfl⟩)
    ⟨.arrive, StreamStep.arriveEnq exTok [] _ rfl (by decide) (by decide)⟩

/-- C9 counterexample: Go's `select` imposes no priority among
simultaneously ready cases — from a reachable state where the
client-disconnect signal is ready, the loop may still pick the envelope
case and write a token frame to the client, contradicting the claim that
the disconnect signal is chosen over any other ready source. -/
theorem select_no_priority_counterexample :
    StreamReach "c1" 0 [exTok] exDisconnectReady ∧
    exDisconnectReady.ctxDone = true ∧
    exDisconnectReady.closed = false ∧
    StreamStep 0 exDisconnectReady (.deliver exTok) exAfterDeliver ∧
    exAfterDeliver.output =
      exDisconnectReady.output ++ [SSEEvent.tokenEvent exTok] :=
  ⟨exDisconnectReady_reach, rfl, rfl,
   StreamStep.deliver exTok [] exDisconnectReady rfl rfl, by decide⟩

/-- C9 amended: the disconnect signal is one of the cases checked at every
loop iteration of both handlers; when the loop does select it, it exits
without writing, and nothing is ever written afterwards — but among
simultaneously ready sources the selection is unprioritized. -/
theorem disconnect_exits_without_write :
    (∀ (k : Int) (s s' : StreamState), StreamStep k s .disconnect s' →
      s'.output = s.output ∧ s'.closed = true ∧
      ∀ s₂, Relation.ReflTransGen (StreamStepAny k) s' s₂ → s₂.output = s.output) ∧
    (∀ (s s' : ChatState), ChatStep s .disconnect s' →
      s'.output = s.output ∧ s'.closed = true ∧
      ∀ s₂, Relation.ReflTransGen ChatStepAny s' s₂ → s₂.output = s.output) := by
  constructor
  · intro k s s' h
    cases h with
    | disconnect s1 hc hd =>
      refine ⟨rfl, rfl, ?_⟩
      intro s₂ h2
      exact (streamReach_closed h2 rfl).1
  · intro s s' h
    cases h with
    | disconnect s1 hc hd =>
      refine ⟨rfl, rfl, ?_⟩
      intro s₂ h2
      exact (chatReach_closed h2 rfl).1

/-- Witness for `disconnect_exits_without_write` at the concrete
disconnect-ready state. -/
theorem disconnect_exits_without_write_witness :
    ({ exDisconnectReady with closed := true } : StreamState).output =
      exDisconnectReady.output ∧
    ({ exDisconnectReady with closed := true } : StreamState).closed = true :=
  ⟨(disconnect_exits_without_write.1 0 exDisconnectReady _
      (StreamStep.disconnect exDisconnectReady rfl rfl)).1,
   (disconnect_exits_without_write.1 0 exDisconnectReady _
      (StreamStep.disconnect exDisconnectReady rfl rfl)).2.1⟩

/-- Every `HandleChat` loop step only appends to the written output. -/
theorem chatStep_output_extends {s s' : ChatState} {l : StepLabel}
    (h : ChatStep s l s') : ∃ tail, s'.output = s.output ++ tail := by
  cases h <;> first
    | exact ⟨_, rfl⟩
    | exact ⟨[], (List.append_nil _).symm⟩

/-- The `event: connected` frame written before the loop stays the first
frame of the response stream forever. -/
theorem chatReach_head {cid : String} {pub : List TokenMessage} {s : ChatState}
    (h : Relation.ReflTransGen ChatStepAny (chatInit cid pub) s) :
    ∃ rest, s.output = SSEEvent.connectedEvent cid :: rest := by
  induction h with
  | refl => exact ⟨[], rfl⟩
  | tail _ hstep ih =>
    obtain ⟨l, hstep⟩ := hstep
    obtain ⟨r, hr⟩ := ih
    obtain ⟨tail, ht⟩ := chatStep_output_extends hstep
    exact ⟨r ++ tail, by rw [ht, hr]; simp⟩

/-- C8 (confirmed): for a valid `POST /chat` request with the proxy
configured, the setup phase performs, in order: the NATS subscribe for the
conversation topic, the `event: connected` write carrying the conversation
id, the launch of the forwarding goroutine, and entry into the delivery
loop — so the subscription exists before the request is forwarded; and on
every reachable loop state the connected frame is the first frame of the
response stream, ahead of every token frame. -/
theorem chat_subscribe_before_forward
    (cfg : AdapterConfig) (body : ChatBody)
    (freshID msg reqCid conversationID : String)
    (hp : cfg.llmProxyURL ≠ "") (hb : body = ChatBody.ok msg reqCid)
    (hm : msg ≠ "")
    (hcid : conversationID = if reqCid = "" then freshID else reqCid) :
    handleChatSetup cfg "POST" body true true freshID =
      [ChatAction.subscribeTopic (tokenSubject conversationID),
       ChatAction.writeConnected conversationID,
       ChatAction.forwardToOrigin cfg.llmProxyURL conversationID msg,
       ChatAction.enterLoop conversationID] ∧
    ∀ pub s, ChatReach conversationID pub s →
      s.output.head? = some (SSEEvent.connectedEvent conversationID) := by
  constructor
  · subst hb hcid
    simp [handleChatSetup, hp, hm]
  · intro pub s hreach
    have h : Relation.ReflTransGen ChatStepAny (chatInit conversationID pub) s := hreach
    obtain ⟨r, hr⟩ := chatReach_head h
    rw [hr]
    rfl

/-- Witness for `chat_subscribe_before_forward` with a concrete request
whose conversation id is freshly generated. -/
theorem chat_subscribe_before_forward_witness :
    handleChatSetup exCfg "POST" (ChatBody.ok "hello" "") true true "f1" =
      [ChatAction.subscribeTopic (tokenSubject "f1"),
       ChatAction.writeConnected "f1",
       ChatAction.forwardToOrigin exCfg.llmProxyURL "f1" "hello",
       ChatAction.enterLoop "f1"] ∧
    (chatInit "f1" ([] : List TokenMessage)).output.head? =
      some (SSEEvent.connectedEvent "f1") :=
  have h := chat_subscribe_before_forward exCfg (ChatBody.ok "hello" "")
    "f1" "hello" "" "f1" (by decide) rfl (by decide) (by decide)
  ⟨h.1, h.2 [] _ Relation.ReflTransGen.refl⟩

/-- C10 (confirmed): with `LLM_PROXY_URL` unset (its default, the empty
string), a `POST /chat` request is answered with HTTP 503 alone — no body
parsing outcome matters, no conversation id is used, no subscription is
opened and no stream frame is written, for every request body and every
subscribe/flusher outcome. -/
theorem chat_disabled_without_proxy
    (env : String → String) (parseDur : String → Option Int)
    (body : ChatBody) (flusherOk subOk : Bool) (freshID : String)
    (henv : env "LLM_PROXY_URL" = "") :
    (adapterLoadConfig env parseDur).llmProxyURL = "" ∧
    handleChatSetup (adapterLoadConfig env parseDur) "POST" body flusherOk subOk
      freshID = [ChatAction.httpError 503 "LLM proxy not configured"] := by
  have h1 : (adapterLoadConfig env parseDur).llmProxyURL = "" := by
    simp [adapterLoadConfig, getEnv, henv]
  refine ⟨h1, ?_⟩
  simp [handleChatSetup, h1]

/-- Witness for `chat_disabled_without_proxy`: empty environment, malformed
body, no flusher, failing subscribe — still exactly the 503 response. -/
theorem chat_disabled_without_proxy_witness :
    (adapterLoadConfig (fun _ => "") (fun _ => none)).llmProxyURL = "" ∧
    handleChatSetup (adapterLoadConfig (fun _ => "") (fun _ => none)) "POST"
      ChatBody.malformed false false "f1" =
      [ChatAction.httpError 503 "LLM proxy not configured"] :=
  chat_disabled_without_proxy (fun _ => "") (fun _ => none) ChatBody.malformed
    false false "f1" rfl

theorem consecSeq_succ (s : Int) (k : Nat) :
    consecSeq s (k + 1) = (s + 1) :: consecSeq (s + 1) k := rfl

theorem consecSeq_append (k₁ : Nat) : ∀ (k₂ : Nat) (s : Int),
    consecSeq s (k₁ + k₂) = consecSeq s k₁ ++ consecSeq (s + k₁) k₂ := by
  induction k₁ with
  | zero => intro k₂ s; simp [consecSeq]
  | succ k ih =>
    intro k₂ s
    have h1 : k + 1 + k₂ = (k + k₂) + 1 := by omega
    rw [h1, consecSeq_succ, consecSeq_succ, ih k₂ (s + 1), List.cons_append]
    have h2 : s + 1 + (k : Int) = s + ((k : Int) + 1) := by ring
    rw [h2]
    norm_cast

theorem consecSeq_chain (k : Nat) : ∀ s : Int,
    List.Chain' (· < ·) (consecSeq s k) ∧
    ∀ x ∈ consecSeq s k, s < x ∧ x ≤ s + k := by
  induction k with
  | zero => intro s; exact ⟨List.chain'_nil, by simp [consecSeq]⟩
  | succ k ih =>
    intro s
    obtain ⟨hch, hmem⟩ := ih (s + 1)
    constructor
    · rw [consecSeq_succ, List.chain'_cons']
      refine ⟨?_, hch⟩
      intro y hy
      cases k with
      | zero => simp [consecSeq] at hy
      | succ k2 =>
        rw [consecSeq_succ] at hy
        simp at hy
        omega
    · intro x hx
      rw [consecSeq_succ] at hx
      rcases List.mem_cons.mp hx with hx | hx
      · constructor
        · omega
        · rw [hx]; push_cast; omega
      · have := hmem x hx
        constructor
        · omega
        · push_cast
          push_cast at this
          omega

theorem consecSeq_getLast (k : Nat) : ∀ s : Int,
    (consecSeq s (k + 1)).getLast? = some (s + (k + 1)) := by
  induction k with
  | zero => intro s; simp [consecSeq]
  | succ k2 ih =>
    intro s
    have h1 : consecSeq s (k2 + 1 + 1) = (s + 1) :: consecSeq (s + 1) (k2 + 1) := rfl
    have h2 : consecSeq (s + 1) (k2 + 1) = (s + 1 + 1) :: consecSeq (s + 1 + 1) k2 := rfl
    rw [h1, h2, List.getLast?_cons_cons, ← h2, ih (s + 1)]
    congr 1
    push_cast
    ring

theorem mem_dropLast_cons {α : Type} {m a : α} {l : List α}
    (h : m ∈ (a :: l).dropLast) : m = a ∨ m ∈ l.dropLast := by
  cases l with
  | nil => simp at h
  | cons b l2 =>
    rw [List.dropLast_cons₂] at h
    rcases List.mem_cons.mp h with h | h
    · exact Or.inl h
    · exact Or.inr h

theorem seqOK_append {s : Int} {xs ys : List TokenMessage}
    (h1 : xs.map (·.sequence) = consecSeq s xs.length)
    (hnd : ∀ m ∈ xs, m.done = false)
    (h2 : SeqOK (s + xs.length) ys) :
    SeqOK s (xs ++ ys) := by
  obtain ⟨h2m, h2d⟩ := h2
  constructor
  · rw [List.map_append, List.length_append, consecSeq_append xs.length ys.length s,
      h1, h2m]
  · intro m hm
    cases hys : ys with
    | nil =>
      rw [hys, List.append_nil] at hm
      exact hnd m ((List.dropLast_sublist xs).subset hm)
    | cons y ys2 =>
      rw [hys, List.dropLast_append_cons] at hm
      rcases List.mem_append.mp hm with h | h
      · exact hnd m h
      · rw [hys] at h2d
        exact h2d m h

theorem countDone_le_one {out : List TokenMessage}
    (hd : ∀ m ∈ out.dropLast, m.done = false) : countDone out ≤ 1 := by
  by_cases hne : out = []
  · rw [hne]; simp [countDone]
  · have hsplit := List.dropLast_append_getLast hne
    have h1 : countDone out =
        countDone out.dropLast + countDone [out.getLast hne] := by
      conv_lhs => rw [← hsplit]
      simp [countDone, List.filter_append]
    have h2 : countDone out.dropLast = 0 := by
      simp only [countDone, List.length_eq_zero]
      rw [List.filter_eq_nil_iff]
      intro a ha
      simp [hd a ha]
    have h3 : countDone [out.getLast hne] ≤ 1 := by
      simp [countDone, List.filter_cons]
      by_cases hdn : (out.getLast hne).done <;> simp [hdn]
    omega

/-- Structure of the inner choice loop of `streamFromLLM`: published
sequence numbers are the consecutive run continuing the counter, only the
last publish (the `finish_reason` terminal) may carry `done = true`, and
when the loop does not return early the counter advanced by exactly the
number of publishes, all of them tokens. -/
theorem streamChoices_spec (cid : String) : ∀ (cs : List LLMChoice) (s : Int),
    ((streamChoices cid s cs).2.1.map (·.sequence) =
      consecSeq s (streamChoices cid s cs).2.1.length) ∧
    (∀ m ∈ (streamChoices cid s cs).2.1.dropLast, m.done = false) ∧
    ((streamChoices cid s cs).2.2 = false →
      (streamChoices cid s cs).1 = s + (streamChoices cid s cs).2.1.length ∧
      ∀ m ∈ (streamChoices cid s cs).2.1, m.done = false) := by
  intro cs
  induction cs with
  | nil =>
    intro s
    refine ⟨rfl, by simp [streamChoices], fun _ => ⟨by simp [streamChoices], ?_⟩⟩
    simp [streamChoices]
  | cons c rest ih =>
    intro s
    by_cases hfin : c.finishReason.isSome
    · by_cases hct : c.content = ""
      · have he : streamChoices cid s (c :: rest) =
            (s, [publishedMsg cid "[DONE]" (s + 1) true], true) := by
          simp [streamChoices, hfin, hct]
        rw [he]
        refine ⟨rfl, by simp, fun hf => by simp at hf⟩
      · have he : streamChoices cid s (c :: rest) =
            (s + 1, [publishedMsg cid c.content (s + 1) false,
              publishedMsg cid "[DONE]" (s + 1 + 1) true], true) := by
          simp [streamChoices, hfin, hct]
        rw [he]
        refine ⟨rfl, ?_, fun hf => by simp at hf⟩
        intro m hm
        simp [publishedMsg] at hm ⊢
        rw [hm]
    · by_cases hct : c.content = ""
      · have he : streamChoices cid s (c :: rest) = streamChoices cid s rest := by
          simp [streamChoices, hfin, hct]
        rw [he]
        exact ih s
      · obtain ⟨ihm, ihd, ihf⟩ := ih (s + 1)
        have he : streamChoices cid s (c :: rest) =
            ((streamChoices cid (s + 1) rest).1,
             publishedMsg cid c.content (s + 1) false ::
               (streamChoices cid (s + 1) rest).2.1,
             (streamChoices cid (s + 1) rest).2.2) := by
          simp [streamChoices, hfin, hct]
        rw [he]
        refine ⟨?_, ?_, ?_⟩
        · simp only [List.map_cons, List.length_cons]
          rw [consecSeq_succ]
          rw [ihm]
          rfl
        · intro m hm
          rcases mem_dropLast_cons hm with hm | hm
          · rw [hm]; rfl
          · exact ihd m hm
        · intro hf
          obtain ⟨hctr, hnd⟩ := ihf hf
          constructor
          · simp only [List.length_cons]
            rw [hctr]
            push_cast
            ring
          · intro m hm
            rcases List.mem_cons.mp hm with hm | hm
            · rw [hm]; rfl
            · exact hnd m hm

/-- Structure of the outer read loop of `streamFromLLM`: from any counter
the published list has consecutive sequence numbers continuing the
counter, and only its last element may carry `done = true`. -/
theorem streamLines_seqOK (cid : String) : ∀ (body : List LLMLine) (s : Int),
    SeqOK s (streamLines cid s body) := by
  intro body
  induction body with
  | nil => intro s; exact ⟨rfl, by intro m hm; simp [streamLines] at hm⟩
  | cons ln rest ih =>
    intro s
    cases ln with
    | skipped => exact ih s
    | badChunk => exact ih s
    | doneMarker => exact ⟨rfl, by intro m hm; simp [List.dropLast] at hm⟩
    | chunk cs =>
      obtain ⟨hmap, hdrop, hfin⟩ := streamChoices_spec cid cs s
      by_cases hf : (streamChoices cid s cs).2.2 = true
      · have he : streamLines cid s (.chunk cs :: rest) =
            (streamChoices cid s cs).2.1 := by
          simp [streamLines, hf]
        rw [he]
        exact ⟨hmap, hdrop⟩
      · have he : streamLines cid s (.chunk cs :: rest) =
            (streamChoices cid s cs).2.1 ++
              streamLines cid (streamChoices cid s cs).1 rest := by
          simp [streamLines, hf]
        obtain ⟨hctr, hnd⟩ := hfin (by simpa using hf)
        rw [he, hctr]
        exact seqOK_append hmap hnd (ih _)

/-- Every generation session publishes envelopes whose sequence numbers
are the consecutive run 1, 2, …, with `done` only possibly on the last. -/
theorem streamFromLLM_seqOK (cid : String) (resp : LLMResponse) :
    SeqOK 0 (streamFromLLM cid resp) := by
  cases resp with
  | createError => exact ⟨rfl, by intro m hm; simp [List.dropLast] at hm⟩
  | transportError => exact ⟨rfl, by intro m hm; simp [List.dropLast] at hm⟩
  | status code body =>
    by_cases hc : code = 200
    · have he : streamFromLLM cid (.status code body) = streamLines cid 0 body := by
        simp [streamFromLLM, hc]
      rw [he]
      exact streamLines_seqOK cid body 0
    · have he : streamFromLLM cid (.status code body) =
          [publishedMsg cid "[ERROR]" 1 true] := by
        simp [streamFromLLM, hc]
      rw [he]
      exact ⟨rfl, by intro m hm; simp [List.dropLast] at hm⟩

/-- C4 counterexample: when the upstream stream ends (EOF or read error)
without a `[DONE]` marker or `finish_reason`, `streamFromLLM` breaks out
of its read loop without publishing any terminal envelope — the session
publishes zero `done = true` envelopes, not exactly one. -/
theorem streamFromLLM_missing_done_counterexample :
    streamFromLLM "c1" (LLMResponse.status 200
        [LLMLine.chunk [⟨"hi", none⟩]]) =
      [publishedMsg "c1" "hi" 1 false] ∧
    countDone (streamFromLLM "c1" (LLMResponse.status 200
        [LLMLine.chunk [⟨"hi", none⟩]])) = 0 := by
  constructor <;> decide

/-- C4 amended: for every generation session — normal, error and
early-termination paths — the published sequence numbers are strictly
increasing, the first published envelope has sequence 1, at most one
envelope carries `done = true`, and a `done = true` envelope, when one is
published, is the last publish and bears the highest sequence number of
the session.  (Exactly one `done` envelope is published on the error and
`[DONE]`/`finish_reason` paths; the stream-ended-early path publishes
none.) -/
theorem streamFromLLM_wellformed (cid : String) (resp : LLMResponse) :
    List.Chain' (· < ·) ((streamFromLLM cid resp).map (·.sequence)) ∧
    (∀ m, (streamFromLLM cid resp).head? = some m → m.sequence = 1) ∧
    countDone (streamFromLLM cid resp) ≤ 1 ∧
    (∀ m ∈ streamFromLLM cid resp, m.done = true →
      (streamFromLLM cid resp).getLast? = some m ∧
      ∀ m2 ∈ streamFromLLM cid resp, m2.sequence ≤ m.sequence) := by
  obtain ⟨hmap, hdrop⟩ := streamFromLLM_seqOK cid resp
  refine ⟨?_, ?_, countDone_le_one hdrop, ?_⟩
  · rw [hmap]
    exact (consecSeq_chain (streamFromLLM cid resp).length 0).1
  · intro m hm
    have h1 : ((streamFromLLM cid resp).map (·.sequence)).head? = some m.sequence := by
      rw [List.head?_map, hm]
      rfl
    rw [hmap] at h1
    cases hlen : (streamFromLLM cid resp).length with
    | zero =>
      rw [hlen] at h1
      simp [consecSeq] at h1
    | succ k =>
      rw [hlen, consecSeq_succ] at h1
      simp at h1
      omega
  · intro m hm hdone
    have hne : streamFromLLM cid resp ≠ [] := by
      intro h0
      rw [h0] at hm
      simp at hm
    have hmlast : m = (streamFromLLM cid resp).getLast hne := by
      have hsplit := List.dropLast_append_getLast hne
      rw [← hsplit] at hm
      rcases List.mem_append.mp hm with h | h
      · rw [hdrop m h] at hdone
        simp at hdone
      · simpa using h
    have hlast? : (streamFromLLM cid resp).getLast? = some m := by
      rw [hmlast]
      exact List.getLast?_eq_getLast_of_ne_nil hne
    refine ⟨hlast?, ?_⟩
    intro m2 hm2
    have hmem2 : m2.sequence ∈ (streamFromLLM cid resp).map (·.sequence) :=
      List.mem_map_of_mem _ hm2
    rw [hmap] at hmem2
    have hb := ((consecSeq_chain (streamFromLLM cid resp).length 0).2 _ hmem2).2
    have h5 : ((streamFromLLM cid resp).map (·.sequence)).getLast? =
        some m.sequence := by
      rw [List.getLast?_map, hlast?]
      rfl
    rw [hmap] at h5
    cases hlen : (streamFromLLM cid resp).length with
    | zero => exact absurd (List.length_eq_zero.mp hlen) hne
    | succ k =>
      rw [hlen] at h5
      rw [consecSeq_getLast k 0] at h5
      simp at h5
      rw [hlen] at hb
      push_cast at hb
      omega

/-- Witness for `streamFromLLM_wellformed` on a concrete complete session:
one content token then the `[DONE]` marker. -/
theorem streamFromLLM_wellformed_witness :
    (publishedMsg "c1" "hi" 1 false).sequence = 1 ∧
    (streamFromLLM "c1" (LLMResponse.status 200
        [LLMLine.chunk [⟨"hi", none⟩], LLMLine.doneMarker])).getLast? =
      some (publishedMsg "c1" "[DONE]" 2 true) :=
  ⟨(streamFromLLM_wellformed "c1" (LLMResponse.status 200
      [LLMLine.chunk [⟨"hi", none⟩], LLMLine.doneMarker])).2.1
      (publishedMsg "c1" "hi" 1 false) (by decide),
   ((streamFromLLM_wellformed "c1" (LLMResponse.status 200
      [LLMLine.chunk [⟨"hi", none⟩], LLMLine.doneMarker])).2.2.2
      (publishedMsg "c1" "[DONE]" 2 true) (by decide) (by decide)).1⟩
